import Mathlib

/-!
Verification of the request-processing and error-aggregation pipeline of
`pytkdocs/cli.py` (the `pytkdocs` command line front end).

The development shallowly embeds the module's functions:

* Python `dict` values (string keyed, insertion ordered, unique keys) are
  modelled as association lists `List (String × α)`; `dictUpdate` models
  `d[k] = v` (replace in place when the key is present, append otherwise)
  and `pyUpdateAll` models `d.update(other)`.
* A documentation tree node (produced by the external `Loader`
  collaborator) is the inductive `Node`: a `path`, an optional
  `docstring_errors` attribute (`hasattr` probing in the source becomes an
  `Option`), and a list of `children`.
* `extract_docstring_parsing_errors` and `extract_errors` are translated
  directly from the source; the dictionary mutated by side effect in
  Python is threaded explicitly.
* `process_config`, `process_json` and the two modes of `main` are
  translated with the `Loader` and `serialize_object` collaborators as
  function parameters; a collaborator that raises is modelled with
  `Except`, and everything printed to standard output is collected in a
  `printed` list of output lines.
-/

namespace Pytkdocs

/-- Python dictionary assignment `d[k] = v` for an insertion-ordered,
unique-key dictionary modelled as an association list: when the key is
present its first binding is replaced in place, otherwise the new binding
is appended at the end. -/
def dictUpdate {α : Type} : List (String × α) → String → α → List (String × α)
  | [], k, v => [(k, v)]
  | p :: d, k, v => if p.1 = k then (k, v) :: d else p :: dictUpdate d k v

/-- Python `d.update(other)`: fold `dictUpdate` over the entries of
`other` in order. -/
def pyUpdateAll {α : Type} (d us : List (String × α)) : List (String × α) :=
  us.foldl (fun acc kv => dictUpdate acc kv.1 kv.2) d

/-- Python dictionary lookup `d.get(k)`: the value of the first binding of
`k`, if any. -/
def pyLookup {α : Type} : List (String × α) → String → Option α
  | [], _ => none
  | p :: d, k => if p.1 = k then some p.2 else pyLookup d k

/-- The keys of an association-list dictionary are pairwise distinct (true
of every genuine Python dictionary). -/
def keysNodup {α : Type} (d : List (String × α)) : Prop :=
  (d.map Prod.fst).Nodup

instance {α : Type} (d : List (String × α)) : Decidable (keysNodup d) := by
  unfold keysNodup; infer_instance

/-- Left-biased choice on options, used to state lookup lemmas. -/
def firstSome {α : Type} : Option α → Option α → Option α
  | some v, _ => some v
  | none, o => o

/-- A documentation tree node as consumed by `extract_errors`: a dotted
`path`, an optional `docstring_errors` attribute (present exactly when the
Python object has the attribute), and the ordered `children`. -/
inductive Node : Type where
  | node (path : String) (docstring_errors : Option (List String)) (children : List Node)

def Node.path : Node → String
  | .node p _ _ => p

def Node.docstring_errors : Node → Option (List String)
  | .node _ de _ => de

def Node.children : Node → List Node
  | .node _ _ cs => cs

mutual

/-- Recursion helper from the source: update the `errors` dictionary (here
threaded explicitly instead of mutated in place) with this node's
docstring errors when the node carries the attribute, then recurse on the
children in order. -/
def extract_docstring_parsing_errors (errors : List (String × List String)) :
    Node → List (String × List String)
  | .node p de cs =>
    extract_errors_children
      (match de with
       | some l => dictUpdate errors p l
       | none => errors) cs

/-- The `for child in o.children` loop of the recursion helper. -/
def extract_errors_children (errors : List (String × List String)) :
    List Node → List (String × List String)
  | [] => errors
  | c :: cs => extract_errors_children (extract_docstring_parsing_errors errors c) cs

end

/-- Extract the docstring parsing errors of each object, recursively, into
a flat dictionary (`extract_errors` in the source: start from an empty
dictionary and run the recursion helper). -/
def extract_errors (obj : Node) : List (String × List String) :=
  extract_docstring_parsing_errors [] obj

mutual

/-- All nodes of a tree in depth-first pre-order (the node itself, then
the subtrees of its children in order). Analysis helper, not from the
source. -/
def subNodes : Node → List Node
  | .node p de cs => .node p de cs :: subNodesList cs

/-- All nodes of a forest in depth-first pre-order. -/
def subNodesList : List Node → List Node
  | [] => []
  | c :: cs => subNodes c ++ subNodesList cs

end

/-- The dictionary entry a single node contributes, if it carries the
docstring-errors attribute. Analysis helper, not from the source. -/
def entryOf (n : Node) : Option (String × List String) :=
  (n.docstring_errors).map fun l => (n.path, l)

/-- The pre-order list of `(path, docstring_errors)` contributions of the
nodes that carry the attribute. Analysis helper used to characterise
`extract_errors`. -/
def errorEntries (t : Node) : List (String × List String) :=
  (subNodes t).filterMap entryOf

/-- Well-formedness of a documentation tree per the data model: node paths
are unique within the tree, and the docstring-errors attribute is present
only when parsing actually failed (never an empty error list). -/
def WellFormed (t : Node) : Prop :=
  ((subNodes t).map Node.path).Nodup ∧
    ∀ n ∈ subNodes t, n.docstring_errors ≠ some []

instance (t : Node) : Decidable (WellFormed t) := by
  unfold WellFormed; infer_instance

/-! ## The request pipeline of `cli.py`

`process_config` iterates over the object specifications of one request.
For each it builds the loader configuration (`dict(global_config)` then
`.update(obj.get("config", {}))`), constructs a fresh `Loader` and asks it
for the object's documentation tree, extends the request-wide
`loading_errors` with the loader's errors, merges `extract_errors` of the
tree into `parsing_errors`, and appends the serialized tree to
`collected`; finally it prints the response envelope as one JSON line and
returns `None`.

The `Loader` collaborator (construction plus `get_object_documentation`,
which also exposes the `errors` of that load call) and the
`serialize_object` collaborator live outside this module; they are
parameters here. A loader that raises is modelled by `Except`. -/

/-- A Python exception, as observed by the driver: `str(error)` and
`traceback.format_exc()`. -/
structure PyError : Type where
  msg : String
  traceback : String
deriving DecidableEq

/-- One object specification of a request: the required `"path"` key and
the optional `"config"` mapping (`obj.get("config", {})`, so a missing
mapping is the empty dictionary). Configuration values are opaque to this
module; their type is a parameter. -/
structure ObjSpec (V : Type) : Type where
  path : String
  config : List (String × V)

/-- One decoded request: the required `"objects"` key and the optional
`"global_config"` mapping (`config.get("global_config", {})`). -/
structure RequestConfig (V : Type) : Type where
  objects : List (ObjSpec V)
  global_config : List (String × V)

/-- The response envelope printed by `process_config`:
`dict(loading_errors=..., parsing_errors=..., objects=collected)`. -/
structure Envelope (S : Type) : Type where
  loading_errors : List String
  parsing_errors : List (String × List String)
  objects : List S

/-- One line printed on standard output: either a response envelope, or
the line-mode error object — a JSON object with exactly the two keys
`error` and `traceback`. -/
inductive OutLine (S : Type) : Type where
  | envelope (e : Envelope S)
  | errorObj (error : String) (traceback : String)

/-- The Loader collaborator: from an effective configuration and a dotted
path, produce the documentation tree and the load errors of that call, or
raise. -/
def LoaderFn (V : Type) : Type :=
  List (String × V) → String → Except PyError (Node × List String)

/-- A Loader that never raises (the normal regime: the spec asks loaders
to record errors rather than raise wherever possible). -/
def TotalLoader (V : Type) : Type :=
  List (String × V) → String → Node × List String

/-- View a never-raising loader as a `LoaderFn`. -/
def liftLoader {V : Type} (loader : TotalLoader V) : LoaderFn V :=
  fun c p => Except.ok (loader c p)

/-- The effective loader configuration built for one object:
`loader_config = dict(global_config)` (a fresh copy) followed by
`loader_config.update(obj.get("config", {}))`. -/
def loader_config {V : Type} (global_config objCfg : List (String × V)) :
    List (String × V) :=
  pyUpdateAll global_config objCfg

/-- The outcome of one call to `process_config`: the lines it printed to
standard output, and either the value it returned (`Except.ok`) or the
exception it raised (`Except.error`). `process_config` has no `return`
statement, so on success the returned value is `none` (Python `None`). -/
structure PCOutcome (S : Type) : Type where
  printed : List (OutLine S)
  result : Except PyError (Option (Envelope S))

/-- The `for obj in config["objects"]` loop of `process_config`, with the
mutable locals (`collected`, `loading_errors`, `parsing_errors`) threaded
explicitly, together with the binding of `global_config` in the caller's
scope. The loop returns the final value of that binding (the loop never
rebinds it: the update is applied to the fresh copy `loader_config`) and
either the final locals or the exception a loader call raised. -/
def process_objects {V S : Type} (loader : LoaderFn V) (serialize : Node → S) :
    List (ObjSpec V) → List (String × V) →
    List S → List String → List (String × List String) →
    List (String × V) ×
      Except PyError (List S × List String × List (String × List String))
  | [], global_config, collected, loading_errors, parsing_errors =>
    (global_config, .ok (collected, loading_errors, parsing_errors))
  | o :: rest, global_config, collected, loading_errors, parsing_errors =>
    match loader (loader_config global_config o.config) o.path with
    | .error e => (global_config, .error e)
    | .ok (tree, errs) =>
      process_objects loader serialize rest global_config
        (collected ++ [serialize tree])
        (loading_errors ++ errs)
        (pyUpdateAll parsing_errors (extract_errors tree))

/-- `process_config`: run the loop from empty accumulators, then print the
envelope as one line and return `None`; an exception propagates before
anything is printed (the `print` is the last statement of the function). -/
def process_config {V S : Type} (loader : LoaderFn V) (serialize : Node → S)
    (config : RequestConfig V) : PCOutcome S :=
  match process_objects loader serialize config.objects config.global_config [] [] [] with
  | (_, .error e) => ⟨[], .error e⟩
  | (_, .ok (collected, loading_errors, parsing_errors)) =>
    ⟨[OutLine.envelope ⟨loading_errors, parsing_errors, collected⟩], .ok none⟩

/-- `process_json`: decode the input (a raised decode error is the
`Except.error` side of `line`) and pass the decoded request to
`process_config`. -/
def process_json {V S : Type} (loader : LoaderFn V) (serialize : Node → S)
    (line : Except PyError (RequestConfig V)) : PCOutcome S :=
  match line with
  | .error e => ⟨[], .error e⟩
  | .ok config => process_config loader serialize config

/-- Line mode of `main`: for each line of standard input run
`process_json`; on an exception print the JSON object
`{"error": str(error), "traceback": traceback.format_exc()}` and continue
with the next line. The result is everything printed, in order. -/
def main_line_by_line {V S : Type} (loader : LoaderFn V) (serialize : Node → S) :
    List (Except PyError (RequestConfig V)) → List (OutLine S)
  | [] => []
  | line :: rest =>
    (match (process_json loader serialize line).result with
     | .ok _ => (process_json loader serialize line).printed
     | .error e =>
       (process_json loader serialize line).printed ++
         [OutLine.errorObj e.msg e.traceback]) ++
      main_line_by_line loader serialize rest

/-- Whole-stream mode of `main`: run `process_json` on the whole input
once, with no exception handler; an exception propagates out of `main`,
otherwise `main` returns exit code 0. -/
def main_whole_stream {V S : Type} (loader : LoaderFn V) (serialize : Node → S)
    (input : Except PyError (RequestConfig V)) :
    List (OutLine S) × Except PyError Int :=
  let out := process_json loader serialize input
  match out.result with
  | .ok _ => (out.printed, .ok 0)
  | .error e => (out.printed, .error e)

/-- The envelope assembled for a request when every load succeeds (the
loop run with a never-raising loader), read off from `process_objects`. -/
def request_envelope {V S : Type} (loader : TotalLoader V) (serialize : Node → S)
    (config : RequestConfig V) : Envelope S :=
  match process_objects (liftLoader loader) serialize
      config.objects config.global_config [] [] [] with
  | (_, .ok (collected, loading_errors, parsing_errors)) =>
    ⟨loading_errors, parsing_errors, collected⟩
  | (_, .error _) => ⟨[], [], []⟩

/-- Specification-side description of the output line produced for one
input line in line mode, following the spec's words: a decode failure or a
processing failure yields the two-key error object, a success yields the
response envelope of the request. Stated separately from the source
translation so that the driver can be proved to refine it. -/
def spec_line_output {V S : Type} (loader : LoaderFn V) (serialize : Node → S)
    (line : Except PyError (RequestConfig V)) : OutLine S :=
  match line with
  | .error e => OutLine.errorObj e.msg e.traceback
  | .ok config =>
    match process_objects loader serialize config.objects config.global_config [] [] [] with
    | (_, .error e) => OutLine.errorObj e.msg e.traceback
    | (_, .ok (collected, loading_errors, parsing_errors)) =>
      OutLine.envelope ⟨loading_errors, parsing_errors, collected⟩

/-- Shallow merge written exactly as the spec's `{**global_config,
**object_config}`: build a new dictionary by inserting the entries of
`global_config` and then those of `object_config`. -/
def star_merge {V : Type} (global_config objCfg : List (String × V)) :
    List (String × V) :=
  pyUpdateAll (pyUpdateAll [] global_config) objCfg

/-! ## Concrete fixtures used to instantiate the theorems -/

/-- A concrete never-raising loader used to exercise the pipeline. -/
def sampleLoader : TotalLoader Int :=
  fun _ _ => (.node "pkg.foo" none [], [])

/-- A concrete loader that raises on every path. -/
def failingLoader : LoaderFn Int :=
  fun _ _ => .error ⟨"cannot load", "Traceback"⟩

/-- A concrete loader producing two trees that collide on one node path
with different docstring errors. -/
def collidingLoader : TotalLoader Int :=
  fun _ p =>
    if p = "pkg.one" then (.node "pkg.mod.Class.method" (some ["first error"]) [], [])
    else (.node "pkg.mod.Class.method" (some ["second error"]) [], [])

/-- A concrete serializer used to exercise the pipeline. -/
def sampleSerialize : Node → Int :=
  fun _ => 0

/-- A concrete three-line input whose middle line fails to decode. -/
def sampleLines : List (Except PyError (RequestConfig Int)) :=
  [.ok ⟨[], []⟩, .error ⟨"invalid json", "Traceback"⟩, .ok ⟨[], []⟩]

/-! ## Lemmas about the dictionary model -/

theorem pyLookup_dictUpdate {α : Type} (d : List (String × α)) (k k' : String) (v : α) :
    pyLookup (dictUpdate d k v) k' = if k = k' then some v else pyLookup d k' := by
  induction d with
  | nil => simp [dictUpdate, pyLookup]
  | cons p d ih =>
    by_cases hpk : p.1 = k
    · by_cases hkk : k = k' <;> simp [dictUpdate, pyLookup, hpk, hkk]
    · by_cases hpk' : p.1 = k'
      · have hkk : k ≠ k' := fun h => hpk (by rw [h, hpk'])
        simp [dictUpdate, pyLookup, hpk, hpk', hkk, Ne.symm hkk]
      · simp [dictUpdate, pyLookup, hpk, hpk', ih]

theorem mem_keys_dictUpdate {α : Type} {d : List (String × α)} {k a : String} {v : α}
    (h : a ∈ (dictUpdate d k v).map Prod.fst) : a ∈ d.map Prod.fst ∨ a = k := by
  induction d with
  | nil => simpa [dictUpdate] using h
  | cons p d ih =>
    by_cases hpk : p.1 = k
    · simp only [dictUpdate, hpk, if_true, List.map_cons, List.mem_cons] at h
      rcases h with h | h
      · exact Or.inr h
      · exact Or.inl (by simp [h])
    · simp only [dictUpdate, hpk, if_false, List.map_cons, List.mem_cons] at h
      rcases h with h | h
      · exact Or.inl (by simp [h])
      · rcases ih h with h' | h'
        · exact Or.inl (by simp [h'])
        · exact Or.inr h'

theorem keysNodup_dictUpdate {α : Type} {d : List (String × α)} (k : String) (v : α)
    (h : keysNodup d) : keysNodup (dictUpdate d k v) := by
  induction d with
  | nil => simp [dictUpdate, keysNodup]
  | cons p d ih =>
    unfold keysNodup at h
    simp only [List.map_cons, List.nodup_cons] at h
    by_cases hpk : p.1 = k
    · unfold keysNodup
      simp only [dictUpdate, hpk, if_true, List.map_cons, List.nodup_cons]
      exact ⟨by rw [← hpk]; exact h.1, h.2⟩
    · unfold keysNodup
      simp only [dictUpdate, hpk, if_false, List.map_cons, List.nodup_cons]
      refine ⟨fun hmem => ?_, ih h.2⟩
      rcases mem_keys_dictUpdate hmem with h' | h'
      · exact h.1 h'
      · exact hpk h'

theorem dictUpdate_of_not_mem {α : Type} {d : List (String × α)} {k : String} (v : α)
    (h : k ∉ d.map Prod.fst) : dictUpdate d k v = d ++ [(k, v)] := by
  induction d with
  | nil => simp [dictUpdate]
  | cons p d ih =>
    simp only [List.map_cons, List.mem_cons] at h
    push_neg at h
    have hpk : p.1 ≠ k := fun hh => h.1 hh.symm
    simp [dictUpdate, hpk, ih h.2]

theorem pyUpdateAll_nil {α : Type} (d : List (String × α)) : pyUpdateAll d [] = d := rfl

theorem pyUpdateAll_cons {α : Type} (d : List (String × α)) (kv : String × α)
    (us : List (String × α)) :
    pyUpdateAll d (kv :: us) = pyUpdateAll (dictUpdate d kv.1 kv.2) us := rfl

theorem pyUpdateAll_append {α : Type} (d us vs : List (String × α)) :
    pyUpdateAll d (us ++ vs) = pyUpdateAll (pyUpdateAll d us) vs := by
  simp [pyUpdateAll, List.foldl_append]

theorem keysNodup_pyUpdateAll {α : Type} {d : List (String × α)}
    (us : List (String × α)) (h : keysNodup d) : keysNodup (pyUpdateAll d us) := by
  induction us generalizing d with
  | nil => exact h
  | cons kv us ih => exact ih (keysNodup_dictUpdate kv.1 kv.2 h)

theorem pyUpdateAll_fresh {α : Type} {d us : List (String × α)}
    (hfresh : ∀ kv ∈ us, kv.1 ∉ d.map Prod.fst) (hnd : keysNodup us) :
    pyUpdateAll d us = d ++ us := by
  induction us generalizing d with
  | nil => simp [pyUpdateAll]
  | cons kv us ih =>
    unfold keysNodup at hnd
    simp only [List.map_cons, List.nodup_cons] at hnd
    rw [pyUpdateAll_cons, dictUpdate_of_not_mem kv.2 (hfresh kv (by simp))]
    rw [ih (fun p hp => ?_) hnd.2]
    · simp
    · simp only [List.map_append, List.mem_append, List.map_cons]
      rintro (h | h)
      · exact hfresh p (by simp [hp]) h
      · simp only [List.map_nil, List.mem_cons, List.not_mem_nil, or_false] at h
        exact hnd.1 (h ▸ List.mem_map_of_mem Prod.fst hp)

theorem pyLookup_append {α : Type} (l₁ l₂ : List (String × α)) (k : String) :
    pyLookup (l₁ ++ l₂) k = firstSome (pyLookup l₁ k) (pyLookup l₂ k) := by
  induction l₁ with
  | nil => simp [pyLookup, firstSome]
  | cons p l₁ ih =>
    by_cases hp : p.1 = k <;> simp [pyLookup, firstSome, hp, ih]

theorem dictUpdate_self {α : Type} {d : List (String × α)} {k : String} {v : α}
    (h : pyLookup d k = some v) : dictUpdate d k v = d := by
  induction d with
  | nil => simp [pyLookup] at h
  | cons p d ih =>
    by_cases hp : p.1 = k
    · simp only [pyLookup, hp, if_true, Option.some_inj] at h
      have : p = (k, v) := by
        cases p
        simp_all
      simp [dictUpdate, hp, this]
    · simp only [pyLookup, hp, if_false] at h
      simp [dictUpdate, hp, ih h]

theorem pyUpdateAll_self {α : Type} {d us : List (String × α)}
    (h : ∀ kv ∈ us, pyLookup d kv.1 = some kv.2) : pyUpdateAll d us = d := by
  induction us with
  | nil => rfl
  | cons kv us ih =>
    rw [pyUpdateAll_cons, dictUpdate_self (h kv (by simp))]
    exact ih fun p hp => h p (by simp [hp])

theorem pyLookup_eq_none_iff {α : Type} (d : List (String × α)) (k : String) :
    pyLookup d k = none ↔ k ∉ d.map Prod.fst := by
  induction d with
  | nil => simp [pyLookup]
  | cons p d ih =>
    by_cases hp : p.1 = k
    · simp [pyLookup, hp]
    · have hkp : ¬k = p.1 := fun h => hp h.symm
      simp [pyLookup, hp, ih, hkp]

theorem pyLookup_pyUpdateAll {α : Type} (d us : List (String × α)) (k : String) :
    pyLookup (pyUpdateAll d us) k =
      firstSome (pyLookup us.reverse k) (pyLookup d k) := by
  induction us generalizing d with
  | nil => simp [pyUpdateAll, pyLookup, firstSome]
  | cons kv us ih =>
    rw [pyUpdateAll_cons, ih, List.reverse_cons, pyLookup_append, pyLookup_dictUpdate]
    cases hv : pyLookup us.reverse k with
    | some v => simp [firstSome]
    | none =>
      by_cases hk : kv.1 = k <;> simp [firstSome, pyLookup, hk]

/-! ## Characterisation of the tree walk -/

theorem subNodes_def (p : String) (de : Option (List String)) (cs : List Node) :
    subNodes (.node p de cs) = .node p de cs :: subNodesList cs := by
  rw [subNodes]

mutual

theorem edpe_eq : ∀ (t : Node) (d : List (String × List String)),
    extract_docstring_parsing_errors d t = pyUpdateAll d ((subNodes t).filterMap entryOf)
  | .node p de cs, d => by
    cases de with
    | none =>
      rw [subNodes_def, List.filterMap_cons]
      simp only [extract_docstring_parsing_errors, entryOf, Node.docstring_errors, Option.map]
      rw [edpe_children_eq cs d]
    | some l =>
      rw [subNodes_def, List.filterMap_cons]
      simp only [extract_docstring_parsing_errors, entryOf, Node.docstring_errors, Option.map]
      rw [edpe_children_eq cs (dictUpdate d p l), pyUpdateAll_cons]
      rfl

theorem edpe_children_eq : ∀ (cs : List Node) (d : List (String × List String)),
    extract_errors_children d cs = pyUpdateAll d ((subNodesList cs).filterMap entryOf)
  | [], d => by rw [extract_errors_children, subNodesList]; rfl
  | c :: cs, d => by
    rw [extract_errors_children, subNodesList, List.filterMap_append, pyUpdateAll_append,
      edpe_eq c d, edpe_children_eq cs (pyUpdateAll d ((subNodes c).filterMap entryOf))]

end

/-- The keys contributed by a forest's error-carrying nodes form a
sublist of the forest's node paths. -/
theorem keys_filterMap_entryOf (l : List Node) :
    ((l.filterMap entryOf).map Prod.fst).Sublist (l.map Node.path) := by
  induction l with
  | nil => simp
  | cons n l ih =>
    cases hde : n.docstring_errors with
    | none =>
      rw [List.filterMap_cons, entryOf, hde]
      simp only [Option.map_none, List.map_cons]
      exact ih.cons n.path
    | some el =>
      rw [List.filterMap_cons, entryOf, hde]
      simp only [Option.map_some, List.map_cons]
      exact ih.cons₂ n.path

theorem keysNodup_errorEntries {t : Node} (h : ((subNodes t).map Node.path).Nodup) :
    keysNodup (errorEntries t) :=
  (keys_filterMap_entryOf (subNodes t)).nodup h

/-- Under unique node paths, `extract_errors` is exactly the pre-order
list of contributions of the error-carrying nodes. -/
theorem extract_errors_eq {t : Node} (h : ((subNodes t).map Node.path).Nodup) :
    extract_errors t = errorEntries t := by
  rw [extract_errors, edpe_eq]
  exact pyUpdateAll_fresh (fun kv _ => by simp) (keysNodup_errorEntries h)

theorem pyLookup_of_mem_of_keysNodup {α : Type} {d : List (String × α)}
    {k : String} {v : α} (hnd : keysNodup d) (hmem : (k, v) ∈ d) :
    pyLookup d k = some v := by
  induction d with
  | nil => simp at hmem
  | cons p d ih =>
    unfold keysNodup at hnd
    simp only [List.map_cons, List.nodup_cons] at hnd
    rcases List.mem_cons.mp hmem with h | h
    · rw [← h]
      simp [pyLookup]
    · by_cases hp : p.1 = k
      · exact absurd (hp ▸ List.mem_map_of_mem Prod.fst h) hnd.1
      · simp only [pyLookup, hp, if_false]
        exact ih hnd.2 h

/-! ## Characterisation of the request loop -/

/-- Running the object loop with a never-raising loader: the
global-configuration binding is returned unchanged, the serialized trees
are appended in object order, the loading errors are concatenated in
object order, and the parsing-error dictionaries are merged in object
order. -/
theorem process_objects_lift {V S : Type} (loader : TotalLoader V) (serialize : Node → S)
    (objs : List (ObjSpec V)) (g : List (String × V)) (c : List S)
    (le : List String) (pe : List (String × List String)) :
    process_objects (liftLoader loader) serialize objs g c le pe =
      (g, .ok
        (c ++ objs.map fun o => serialize (loader (loader_config g o.config) o.path).1,
         le ++ (objs.map fun o => (loader (loader_config g o.config) o.path).2).flatten,
         pyUpdateAll pe
           ((objs.map fun o =>
              extract_errors (loader (loader_config g o.config) o.path).1).flatten))) := by
  induction objs generalizing c le pe with
  | nil => simp [process_objects, pyUpdateAll_nil]
  | cons o objs ih =>
    cases hp : loader (loader_config g o.config) o.path with
    | mk tree errs =>
      simp only [process_objects, liftLoader, hp, ih, List.map_cons]
      simp [List.flatten_cons, pyUpdateAll_append, List.append_assoc]

/-- The envelope of `request_envelope`, component by component. -/
theorem request_envelope_eq {V S : Type} (loader : TotalLoader V) (serialize : Node → S)
    (config : RequestConfig V) :
    request_envelope loader serialize config =
      ⟨(config.objects.map fun o =>
          (loader (loader_config config.global_config o.config) o.path).2).flatten,
       pyUpdateAll []
         ((config.objects.map fun o =>
            extract_errors
              (loader (loader_config config.global_config o.config) o.path).1).flatten),
       config.objects.map fun o =>
         serialize (loader (loader_config config.global_config o.config) o.path).1⟩ := by
  rw [request_envelope, process_objects_lift]
  simp

/-- With a never-raising loader, `process_config` prints exactly the
request's envelope (one line) and returns `None`. -/
theorem process_config_lift {V S : Type} (loader : TotalLoader V) (serialize : Node → S)
    (config : RequestConfig V) :
    process_config (liftLoader loader) serialize config =
      ⟨[OutLine.envelope (request_envelope loader serialize config)], .ok none⟩ := by
  rw [process_config, request_envelope, process_objects_lift]

/-- If `process_config` raises, it has printed nothing. -/
theorem process_config_error_printed {V S : Type} (loader : LoaderFn V)
    (serialize : Node → S) (config : RequestConfig V) (e : PyError)
    (h : (process_config loader serialize config).result = .error e) :
    (process_config loader serialize config : PCOutcome S).printed = [] := by
  rw [process_config] at h ⊢
  cases hm : process_objects loader serialize config.objects config.global_config [] [] [] with
  | mk g r =>
    cases r with
    | error e' => simp [hm]
    | ok triple =>
      obtain ⟨c, le, pe⟩ := triple
      rw [hm] at h
      simp at h

/-- The line-mode driver maps each input line to the output line the spec
describes for it, independently of the other lines. -/
theorem main_line_by_line_eq {V S : Type} (loader : LoaderFn V) (serialize : Node → S)
    (lines : List (Except PyError (RequestConfig V))) :
    main_line_by_line loader serialize lines =
      lines.map (spec_line_output loader serialize) := by
  induction lines with
  | nil => rw [main_line_by_line, List.map_nil]
  | cons line rest ih =>
    rw [main_line_by_line, ih, List.map_cons]
    cases line with
    | error e => simp [process_json, spec_line_output]
    | ok config =>
      simp only [process_json, process_config, spec_line_output]
      cases hm : process_objects loader serialize config.objects config.global_config [] [] [] with
      | mk g r =>
        cases r with
        | error e => simp
        | ok triple =>
          obtain ⟨c, le, pe⟩ := triple
          simp

/-- The dictionaries built by the tree walk always have unique keys, no
matter the tree. -/
theorem keysNodup_extract_errors (t : Node) : keysNodup (extract_errors t) := by
  rw [extract_errors, edpe_eq]
  exact keysNodup_pyUpdateAll _ (by simp [keysNodup])

/-- Under unique keys the first binding is also the last, so lookup in the
reversed dictionary agrees with lookup. -/
theorem pyLookup_reverse_of_keysNodup {α : Type} {d : List (String × α)}
    (hnd : keysNodup d) (k : String) : pyLookup d.reverse k = pyLookup d k := by
  induction d with
  | nil => rfl
  | cons p d ih =>
    unfold keysNodup at hnd
    simp only [List.map_cons, List.nodup_cons] at hnd
    rw [List.reverse_cons, pyLookup_append, ih hnd.2]
    by_cases hp : p.1 = k
    · have : pyLookup d k = none := by
        rw [pyLookup_eq_none_iff]
        exact fun hk => hnd.1 (hp ▸ hk)
      simp [pyLookup, hp, this, firstSome]
    · cases hv : pyLookup d k <;> simp [pyLookup, hp, hv, firstSome]

/-- A dictionary with unique keys is rebuilt unchanged by inserting its
entries into the empty dictionary. -/
theorem pyUpdateAll_nil_left {α : Type} {g : List (String × α)} (hg : keysNodup g) :
    pyUpdateAll [] g = g := by
  rw [pyUpdateAll_fresh (fun kv _ => by simp) hg]
  rfl

/-- If processing an input line raises, the spec-side output for that line
is the two-key error object built from the exception. -/
theorem spec_line_output_of_error {V S : Type} (loader : LoaderFn V)
    (serialize : Node → S) (line : Except PyError (RequestConfig V)) (e : PyError)
    (h : (process_json loader serialize line : PCOutcome S).result = .error e) :
    spec_line_output loader serialize line = OutLine.errorObj e.msg e.traceback := by
  cases line with
  | error e' =>
    simp only [process_json] at h
    cases h
    rfl
  | ok config =>
    simp only [process_json, process_config] at h
    rw [spec_line_output]
    cases hm : process_objects loader serialize config.objects config.global_config [] [] [] with
    | mk g r =>
      rw [hm] at h
      cases r with
      | error e' =>
        simp only at h
        cases h
        rfl
      | ok triple =>
        obtain ⟨c, le, pe⟩ := triple
        simp at h

/-! ## The claims -/

/-- C1: in line mode the protocol driver writes exactly one output line
per input line, in input order; a line whose decoding or processing raises
yields as its output a single JSON object with exactly the keys `error`
and `traceback` (the `OutLine.errorObj` constructor), and every other line
is still processed: the output is the pointwise image of the input lines
under the per-line specification `spec_line_output`, which maps a failing
line to its error object and a succeeding line to its response
envelope. -/
theorem line_mode_one_output_per_line {V S : Type} (loader : LoaderFn V)
    (serialize : Node → S) (lines : List (Except PyError (RequestConfig V))) :
    (main_line_by_line loader serialize lines).length = lines.length ∧
    main_line_by_line loader serialize lines =
      lines.map (spec_line_output loader serialize) ∧
    ∀ (i : Nat) (line : Except PyError (RequestConfig V)) (e : PyError),
      lines[i]? = some line →
      (process_json loader serialize line : PCOutcome S).result = .error e →
      (main_line_by_line loader serialize lines)[i]? =
        some (OutLine.errorObj e.msg e.traceback) := by
  refine ⟨?_, main_line_by_line_eq loader serialize lines, ?_⟩
  · rw [main_line_by_line_eq loader serialize lines, List.length_map]
  · intro i line e hi he
    rw [main_line_by_line_eq loader serialize lines, List.getElem?_map, hi]
    simp [spec_line_output_of_error loader serialize line e he]

/-- C1 witness: a three-line session whose middle line fails to decode
produces three output lines, the middle one the two-key error object. -/
theorem line_mode_one_output_per_line_witness :
    (main_line_by_line (liftLoader sampleLoader) sampleSerialize sampleLines).length = 3 ∧
    (main_line_by_line (liftLoader sampleLoader) sampleSerialize sampleLines)[1]? =
      some (OutLine.errorObj "invalid json" "Traceback") :=
  ⟨(line_mode_one_output_per_line (liftLoader sampleLoader) sampleSerialize sampleLines).1,
    (line_mode_one_output_per_line (liftLoader sampleLoader) sampleSerialize sampleLines).2.2
      1 (.error ⟨"invalid json", "Traceback"⟩) ⟨"invalid json", "Traceback"⟩ rfl rfl⟩

/-- C2: for a well-formed documentation tree (unique node paths, and the
docstring-errors attribute present only with a non-empty error list),
`extract_errors` has unique keys, looks up every node's path to exactly
that node's attribute (`some` of its non-empty error list when present,
`none` — no entry — when absent), and every entry of the result is the
contribution of an error-carrying node. -/
theorem extract_errors_exactly_error_nodes (t : Node) (h : WellFormed t) :
    keysNodup (extract_errors t) ∧
    (∀ n ∈ subNodes t, pyLookup (extract_errors t) n.path = n.docstring_errors) ∧
    ∀ kv ∈ extract_errors t,
      ∃ n ∈ subNodes t, n.path = kv.1 ∧ n.docstring_errors = some kv.2 ∧ kv.2 ≠ [] := by
  obtain ⟨hnd, hne⟩ := h
  have heq := extract_errors_eq hnd
  refine ⟨keysNodup_extract_errors t, ?_, ?_⟩
  · intro n hn
    cases hde : n.docstring_errors with
    | some l =>
      apply pyLookup_of_mem_of_keysNodup (keysNodup_extract_errors t)
      rw [heq]
      exact List.mem_filterMap.mpr ⟨n, hn, by simp [entryOf, hde]⟩
    | none =>
      rw [pyLookup_eq_none_iff, heq]
      intro hk
      obtain ⟨kv, hkv, hkn⟩ := List.mem_map.mp hk
      obtain ⟨m, hm, hem⟩ := List.mem_filterMap.mp hkv
      obtain ⟨l, hml, hkvl⟩ := Option.map_eq_some.mp hem
      have hpath : m.path = n.path := by rw [← hkvl] at hkn; exact hkn
      have : m = n := List.inj_on_of_nodup_map hnd hm hn hpath
      rw [this, hde] at hml
      cases hml
  · intro kv hkv
    rw [heq] at hkv
    obtain ⟨n, hn, hen⟩ := List.mem_filterMap.mp hkv
    obtain ⟨l, hml, hkvl⟩ := Option.map_eq_some.mp hen
    have hl : l = kv.2 := by rw [← hkvl]
    refine ⟨n, hn, by rw [← hkvl], by rw [hml, hl], ?_⟩
    intro hnil
    exact hne n hn (by rw [hml, hl, hnil])

/-- C2 witness: a two-node tree whose root carries one parse error and
whose child carries none. -/
theorem extract_errors_exactly_error_nodes_witness :
    WellFormed (.node "pkg.mod" (some ["parse failure"]) [.node "pkg.mod.f" none []]) ∧
    (keysNodup (extract_errors
        (.node "pkg.mod" (some ["parse failure"]) [.node "pkg.mod.f" none []])) ∧
      (∀ n ∈ subNodes (.node "pkg.mod" (some ["parse failure"]) [.node "pkg.mod.f" none []]),
        pyLookup (extract_errors
            (.node "pkg.mod" (some ["parse failure"]) [.node "pkg.mod.f" none []])) n.path =
          n.docstring_errors) ∧
      ∀ kv ∈ extract_errors
          (.node "pkg.mod" (some ["parse failure"]) [.node "pkg.mod.f" none []]),
        ∃ n ∈ subNodes (.node "pkg.mod" (some ["parse failure"]) [.node "pkg.mod.f" none []]),
          n.path = kv.1 ∧ n.docstring_errors = some kv.2 ∧ kv.2 ≠ []) :=
  ⟨by decide, extract_errors_exactly_error_nodes _ (by decide)⟩

/-- C10: `extract_errors` is pure in this embedding (the tree is read-only
by construction and equal inputs give equal mappings definitionally); the
substantive content of idempotence is that re-running the extraction pass
over the same tree, starting from the mapping the first run produced,
leaves that mapping unchanged. Hypothesis: node paths are unique within
the tree, the data-model invariant. -/
theorem extract_errors_idempotent (t : Node)
    (h : ((subNodes t).map Node.path).Nodup) :
    extract_docstring_parsing_errors (extract_errors t) t = extract_errors t := by
  rw [edpe_eq]
  apply pyUpdateAll_self
  intro kv hkv
  apply pyLookup_of_mem_of_keysNodup (keysNodup_extract_errors t)
  rw [extract_errors_eq h]
  exact hkv

/-- C10 witness: re-running the walk on a concrete tree returns the same
mapping. -/
theorem extract_errors_idempotent_witness :
    ((subNodes (.node "pkg.mod" (some ["parse failure"]) [.node "pkg.mod.f" none []])).map
        Node.path).Nodup ∧
    extract_docstring_parsing_errors
        (extract_errors (.node "pkg.mod" (some ["parse failure"]) [.node "pkg.mod.f" none []]))
        (.node "pkg.mod" (some ["parse failure"]) [.node "pkg.mod.f" none []]) =
      extract_errors (.node "pkg.mod" (some ["parse failure"]) [.node "pkg.mod.f" none []]) :=
  ⟨by decide, extract_errors_idempotent _ (by decide)⟩

/-- C3 (code bug): for a well-formed request, `process_config` does not
return the response envelope to its caller — it prints the envelope on
standard output and returns `None` — although its own signature
(`-> dict`) and docstring promise the envelope as return value. This
theorem evaluates the code on the request `{"objects": [{"path":
"pkg.foo"}]}`: the returned value is `None` while the fully populated
envelope goes to standard output. -/
theorem process_config_prints_and_returns_none :
    (@process_config Int Int (liftLoader sampleLoader) sampleSerialize
        ⟨[⟨"pkg.foo", []⟩], []⟩).result = .ok none ∧
    (@process_config Int Int (liftLoader sampleLoader) sampleSerialize
        ⟨[⟨"pkg.foo", []⟩], []⟩).printed = [OutLine.envelope ⟨[], [], [0]⟩] := by
  constructor <;> rfl

/-- C4: the effective configuration built for every object equals the
shallow merge `\x7b**global_config, **object_config\x7d` (object keys win),
observable in the loader application for every object of the envelope;
and on the spec's example the merge of `\x7b"a":1,"b":2\x7d` with
`\x7b"b":3\x7d` is `\x7b"a":1,"b":3\x7d`. The hypothesis says the global
configuration is a genuine dictionary (unique keys). -/
theorem effective_config_is_shallow_merge {V S : Type} (loader : TotalLoader V)
    (serialize : Node → S) (config : RequestConfig V)
    (hg : keysNodup config.global_config) :
    (∀ c : List (String × V),
      loader_config config.global_config c = star_merge config.global_config c) ∧
    (request_envelope loader serialize config).objects =
      config.objects.map (fun o =>
        serialize (loader (star_merge config.global_config o.config) o.path).1) ∧
    loader_config [("a", (1 : Int)), ("b", 2)] [("b", 3)] = [("a", 1), ("b", 3)] := by
  have h1 : ∀ c : List (String × V),
      loader_config config.global_config c = star_merge config.global_config c := by
    intro c
    rw [loader_config, star_merge, pyUpdateAll_nil_left hg]
  refine ⟨h1, ?_, by decide⟩
  rw [request_envelope_eq]
  simp only [h1]

/-- C4 witness: the spec's merge example, through the theorem. -/
theorem effective_config_is_shallow_merge_witness :
    keysNodup [("a", (1 : Int)), ("b", 2)] ∧
    loader_config [("a", (1 : Int)), ("b", 2)] [("b", 3)] =
      star_merge [("a", (1 : Int)), ("b", 2)] [("b", 3)] ∧
    loader_config [("a", (1 : Int)), ("b", 2)] [("b", 3)] = [("a", 1), ("b", 3)] :=
  ⟨by decide,
    (effective_config_is_shallow_merge sampleLoader sampleSerialize
        ⟨[], [("a", 1), ("b", 2)]⟩ (by decide)).1 [("b", 3)],
    (effective_config_is_shallow_merge sampleLoader sampleSerialize
        ⟨[], [("a", 1), ("b", 2)]⟩ (by decide)).2.2⟩

/-- C5: the `global_config` binding is unchanged after the whole request
is processed: each iteration overlays the object's configuration onto a
fresh copy (`dict(global_config)`), so the loop returns the binding it was
given — whatever the loader, the objects, and the accumulator states, and
also when a load raises midway. -/
theorem global_config_not_mutated {V S : Type} (loader : LoaderFn V)
    (serialize : Node → S) (objs : List (ObjSpec V)) (g : List (String × V))
    (collected : List S) (le : List String) (pe : List (String × List String)) :
    (process_objects loader serialize objs g collected le pe).1 = g := by
  induction objs generalizing collected le pe with
  | nil => rfl
  | cons o objs ih =>
    cases hl : loader (loader_config g o.config) o.path with
    | error e => simp [process_objects, hl]
    | ok r =>
      obtain ⟨tree, errs⟩ := r
      simp [process_objects, hl, ih]

/-- C6: when the trees of several objects contain nodes with the same
path, the envelope's `parsing_errors` entry for that path is the one
contributed by the request-order-latest object whose tree contains it
(last write wins): if the last object's tree has an entry for `p`, that
entry is the final one, whatever the earlier objects contributed. -/
theorem parsing_errors_last_write_wins {V S : Type} (loader : TotalLoader V)
    (serialize : Node → S) (g : List (String × V)) (pre : List (ObjSpec V))
    (o2 : ObjSpec V) (p : String) (e2 : List String)
    (h2 : pyLookup (extract_errors (loader (loader_config g o2.config) o2.path).1) p =
      some e2) :
    pyLookup (request_envelope loader serialize ⟨pre ++ [o2], g⟩).parsing_errors p =
      some e2 := by
  rw [request_envelope_eq]
  simp only [List.map_append, List.map_cons, List.map_nil, List.flatten_append,
    List.flatten_cons, List.flatten_nil, List.append_nil, pyUpdateAll_append]
  rw [pyLookup_pyUpdateAll,
    pyLookup_reverse_of_keysNodup (keysNodup_extract_errors _), h2]
  rfl

/-- C6 witness: two objects whose trees collide on
`"pkg.mod.Class.method"`; the second object's error list wins. -/
theorem parsing_errors_last_write_wins_witness :
    pyLookup (extract_errors
        (collidingLoader (loader_config [] []) "pkg.two").1) "pkg.mod.Class.method" =
      some ["second error"] ∧
    pyLookup (request_envelope collidingLoader sampleSerialize
        ⟨[⟨"pkg.one", []⟩] ++ [⟨"pkg.two", []⟩], []⟩).parsing_errors
        "pkg.mod.Class.method" =
      some ["second error"] :=
  ⟨by decide,
    parsing_errors_last_write_wins collidingLoader sampleSerialize []
      [⟨"pkg.one", []⟩] ⟨"pkg.two", []⟩ "pkg.mod.Class.method" ["second error"]
      (by decide)⟩

/-- C7: the envelope's `objects` sequence is the request's object
specifications mapped, in request order, to the serialized tree the loader
produced for them — in particular it has exactly one element per object
specification. -/
theorem objects_in_request_order {V S : Type} (loader : TotalLoader V)
    (serialize : Node → S) (config : RequestConfig V) :
    (request_envelope loader serialize config).objects =
      config.objects.map (fun o =>
        serialize (loader (loader_config config.global_config o.config) o.path).1) ∧
    (request_envelope loader serialize config).objects.length =
      config.objects.length := by
  rw [request_envelope_eq]
  simp

/-- C8: the envelope's `loading_errors` is the concatenation, in object
order, of the per-object load-error sequences: the flattening of the
object-order list of each load call's errors. -/
theorem loading_errors_concatenated_in_order {V S : Type} (loader : TotalLoader V)
    (serialize : Node → S) (config : RequestConfig V) :
    (request_envelope loader serialize config).loading_errors =
      (config.objects.map (fun o =>
        (loader (loader_config config.global_config o.config) o.path).2)).flatten := by
  rw [request_envelope_eq]

/-- C9: in whole-stream mode a decode failure (empty or invalid JSON
input) or a processing failure propagates out of `main` and nothing at all
is printed — no partial envelope and no error-shaped object. -/
theorem whole_stream_failure_propagates {V S : Type} (loader : LoaderFn V)
    (serialize : Node → S) :
    (∀ e : PyError,
      main_whole_stream loader serialize (.error e) =
        (([] : List (OutLine S)), .error e)) ∧
    ∀ (config : RequestConfig V) (e : PyError),
      (process_config loader serialize config : PCOutcome S).result = .error e →
      main_whole_stream loader serialize (.ok config) = ([], .error e) := by
  constructor
  · intro e
    rfl
  · intro config e h
    have hp := process_config_error_printed loader serialize config e h
    simp [main_whole_stream, process_json, h, hp]

/-- C9 witness: an unresolvable request whose load raises propagates with
no output, and so does undecodable input. -/
theorem whole_stream_failure_propagates_witness :
    main_whole_stream failingLoader sampleSerialize (.ok ⟨[⟨"pkg.foo", []⟩], []⟩) =
      ([], .error ⟨"cannot load", "Traceback"⟩) ∧
    main_whole_stream failingLoader sampleSerialize
        (.error ⟨"invalid json", "Traceback"⟩) =
      ([], .error ⟨"invalid json", "Traceback"⟩) :=
  ⟨(whole_stream_failure_propagates failingLoader sampleSerialize).2
      ⟨[⟨"pkg.foo", []⟩], []⟩ ⟨"cannot load", "Traceback"⟩ rfl,
    (whole_stream_failure_propagates failingLoader sampleSerialize).1
      ⟨"invalid json", "Traceback"⟩⟩

end Pytkdocs
